import Mathlib

/-!
Verification of the peon-mcp session core: a shallow embedding of
`src/services/command-runner.ts` (class `CommandRunner`) and of the session
registry `ProcessManager` (`src/services/process-manager.ts`), together with
proofs about the embedded operations.

Modelling conventions:
* JavaScript strings are Lean `String` (lists of characters); the relevant
  regex operations of the source are embedded as executable character-list
  functions with the exact JS semantics they have on the patterns involved
  (in JS regexes without the `s` flag, `.` matches any character except the
  line terminators LF, CR, U+2028, U+2029).
* The single-threaded cooperative scheduling of Node is embedded as a step
  function over an explicit runner state: each callback of the source
  (onData, onExit, the connection interval tick, the connection timeout, a
  per-command timeout, an executeCommand call, a stop call) is one event.
* Promise sinks are embedded as logs: `delivered` records, in delivery
  order, the settlement of each queued command sink; `earlyRejected`
  records executeCommand calls rejected before queueing; `startResult`
  records the settlement of the pending start() promise.
* Commands are numbered by a counter at submission time, so submission
  order is the numeric order of identifiers.
-/

namespace PeonMcp

/-! ## JS character classes -/

/-- Character class of the JS regex escape \s (whitespace), as used by
`String.prototype.trim` and by the `\s*` in the prompt-detection regex of
`checkCommandCompletion` (command-runner.ts line 317). -/
def isJsWhitespace (c : Char) : Bool :=
  c = ' ' || c = '\t' || c = '\n' || c = '\r' || c = '\x0b' || c = '\x0c' ||
  c = '\u00A0' || c = '\u1680' || ('\u2000' ≤ c && c ≤ '\u200A') ||
  c = '\u2028' || c = '\u2029' || c = '\u202F' || c = '\u205F' ||
  c = '\u3000' || c = '\uFEFF'

/-- Line terminators, the characters a JS `.` (without the s flag) does not
match: LF, CR, U+2028, U+2029. -/
def isLineTerm (c : Char) : Bool :=
  c = '\n' || c = '\r' || c = '\u2028' || c = '\u2029'

/-- Characters matched by the class `[\n\r]` in the prompt-detection regex. -/
def isNewline (c : Char) : Bool :=
  c = '\n' || c = '\r'

/-- Characters matched by the class `[$#%>]` in the prompt-detection regex
(command-runner.ts line 317). -/
def isPromptDelim (c : Char) : Bool :=
  c = '$' || c = '#' || c = '%' || c = '>'

/-! ## JS string primitives -/

/-- Test whether `pre` is a leading segment of `l` (JS `String.startsWith`,
used to implement substring containment). -/
def leadsWith : List Char → List Char → Bool
  | [], _ => true
  | _ :: _, [] => false
  | a :: as, b :: bs => a = b && leadsWith as bs

/-- Containment of `needle` as a contiguous substring of `hay`:
JS `String.prototype.includes`. -/
def strContainsChars (needle : List Char) : List Char → Bool
  | [] => needle.isEmpty
  | c :: rest => leadsWith needle (c :: rest) || strContainsChars needle rest

/-- JS `hay.includes(needle)`. -/
def strContains (hay needle : String) : Bool :=
  strContainsChars needle.data hay.data

/-- Both-ends whitespace removal on a character list, with the JS \s class. -/
def jsTrimChars (cs : List Char) : List Char :=
  ((cs.dropWhile isJsWhitespace).reverse.dropWhile isJsWhitespace).reverse

/-- JS `String.prototype.trim` (used at command-runner.ts line 329 on the
completed raw buffer and at line 237 on the scrubbed result). -/
def jsTrim (s : String) : String :=
  ⟨jsTrimChars s.data⟩

/-! ## The ansi-regex dependency

Modelled from the spec: "strip ANSI escape sequences" (command-runner.ts
line 231 applies `output.replace(ansiRegex(), "")`; the `ansi-regex`
package is an external dependency whose source is not part of this
repository). Every alternative of that package regex begins with ESC
(U+001B) or CSI (U+009B), so on strings free of those two characters it
removes nothing; the embedding below shares that property and removes an
introducer, its parameter characters and one final character otherwise. -/

/-- Parameter-like characters that keep an escape sequence open: the byte
range 0x30-0x3F (digits, `;`, `?`, ...) together with the common
intermediate and introducer punctuation of CSI/OSC sequences. -/
def isAnsiParamChar (c : Char) : Bool :=
  ('0' ≤ c && c ≤ '?') || c = '[' || c = ']' || c = '(' || c = ')' ||
  c = '#' || c = ' '

/-- State machine over the character list: the Bool flag records being
inside an escape sequence. -/
def stripAnsiGo : Bool → List Char → List Char
  | _, [] => []
  | true, c :: cs =>
    if isAnsiParamChar c then stripAnsiGo true cs else stripAnsiGo false cs
  | false, c :: cs =>
    if c = '\u001B' || c = '\u009B' then stripAnsiGo true cs
    else c :: stripAnsiGo false cs

/-- Removal of ANSI escape sequences (the `ansi-regex` replace of
command-runner.ts line 231). -/
def stripAnsi (s : String) : String :=
  ⟨stripAnsiGo false s.data⟩

/-! ## The result-scrubbing pipeline of executeCommand (lines 228-239) -/

/-- Core of the replace of command-runner.ts line 234,
`output.replace(/^.*\n/, "")`: anchored at the start, `.*` cannot cross a
line terminator, so the regex matches exactly when the first line
terminator of the string is LF, and the match removes everything up to and
including that LF. Returns `some rest` when the regex matches. -/
def dropEchoLineChars : List Char → Option (List Char)
  | [] => none
  | c :: cs =>
    if c = '\n' then some cs
    else if isLineTerm c then none
    else dropEchoLineChars cs

/-- JS `output.replace(/^.*\n/, "")` (command-runner.ts line 234). -/
def dropEchoLine (s : String) : String :=
  match dropEchoLineChars s.data with
  | some rest => ⟨rest⟩
  | none => s

/-- The scrubbing applied by `executeCommand` to a resolved raw result
(command-runner.ts lines 228-239): strip ANSI escapes, strip the leading
line, trim whitespace. -/
def scrub (result : String) : String :=
  jsTrim (dropEchoLine (stripAnsi result))

/-! ## Prompt detection (checkCommandCompletion, lines 300-326) -/

/-- The string members of `promptPatterns` (command-runner.ts lines
301-318), each tested with `includes`. -/
def promptLiterals : List String :=
  ["\n$ ", "\r\n$ ", "\n# ", "\r\n# ", "\n% ", "\r\n% ", "\n> ", "\r\n> "]

/-- Test of the regex member `/[\n\r]+.*[$#%>]\s*$/` of `promptPatterns`
(command-runner.ts line 317). Since the pattern is anchored at the end and
none of `[$#%>]` is whitespace, it matches exactly when the last
non-whitespace character is a prompt delimiter and, walking further left,
a LF or CR appears before any other line terminator. -/
def tailPromptRegex (buf : String) : Bool :=
  match (buf.data.reverse).dropWhile isJsWhitespace with
  | [] => false
  | p :: rest =>
    isPromptDelim p &&
      match rest.dropWhile (fun c => !(isLineTerm c)) with
      | [] => false
      | q :: _ => isNewline q

/-- The `hasPrompt` disjunction of `checkCommandCompletion`
(command-runner.ts lines 320-326). -/
def hasPrompt (buf : String) : Bool :=
  promptLiterals.any (fun pat => strContains buf pat) || tailPromptRegex buf

/-! ## Connection readiness and failure heuristics of start() -/

/-- Readiness test of the `checkConnection` interval (command-runner.ts
lines 157-162): the output buffer includes one of the four prompt
characters anywhere. -/
def bufferIndicatesReady (buf : String) : Bool :=
  strContains buf "$" || strContains buf "#" || strContains buf "%" ||
  strContains buf ">"

/-- Failure test of the `checkConnection` interval (command-runner.ts lines
169-173) on the error buffer. -/
def errorIndicatesFailure (buf : String) : Bool :=
  strContains buf "Error" || strContains buf "failed" ||
  strContains buf "timed out"

/-! ## Error message strings of the CommandRunner -/

/-- Message of the rejection at command-runner.ts line 148. -/
def connTimeoutMsg (command : String) : String :=
  "Connection timeout executing command " ++ command

/-- Message of the rejection at command-runner.ts line 128. -/
def exitRejectMsg (code : Int) : String :=
  "Process exited with code " ++ toString code

/-- Message of the rejection at command-runner.ts lines 130-134. -/
def cmdFailMsg (code : Int) : String :=
  "Command execution failed: Process exited with code " ++ toString code

/-- Message of the rejection at command-runner.ts line 215. -/
def notRunningMsg (command : String) : String :=
  "Process not running: " ++ command

/-- Message of the rejection at command-runner.ts lines 176-180. -/
def startFailMsg (command errBuf : String) : String :=
  "Failed to start process " ++ command ++ ": " ++ errBuf

/-! ## CommandRunner state -/

/-- An entry of `commandQueue` (command-runner.ts lines 31-35): the command
text together with the submission number standing for its resolve/reject
sink. -/
structure Pending where
  id : Nat
  command : String
deriving Repr, DecidableEq

/-- Settlement of a queued command sink: `ok` for resolve, `err` for
reject. -/
inductive CmdResult
  | ok : String → CmdResult
  | err : String → CmdResult
deriving Repr, DecidableEq

/-- Settlement of the promise created by start(). -/
inductive StartSettle
  | resolved
  | rejected : String → StartSettle
deriving Repr, DecidableEq

/-- The mutable fields of class CommandRunner (command-runner.ts lines
27-46) together with the observation logs of the embedding. `hasProcess`
is the JS test `this.process !== null`; `spawnCount` counts pty.spawn
calls; `armedTimeouts` counts outstanding per-command timeout handles;
`writes` logs every `process.write` of a dispatched command;
`delivered` logs every settlement of a queued command sink, in order;
`earlyRejected` logs executeCommand calls rejected before queueing;
`nextId` numbers executeCommand submissions. -/
structure RunnerState where
  configCommand : String := ""
  hasProcess : Bool := false
  isConnected : Bool := false
  commandQueue : List Pending := []
  currentCommand : Option Pending := none
  outputBuffer : String := ""
  errorBuffer : String := ""
  nextId : Nat := 0
  delivered : List (Nat × CmdResult) := []
  earlyRejected : List (Nat × String) := []
  writes : List (Nat × String) := []
  armedTimeouts : Nat := 0
  spawnCount : Nat := 0
  startResult : Option StartSettle := none
deriving Repr

/-- JS promises settle at most once: a resolve or reject after the first
settlement is a no-op. -/
def settleStart (s : RunnerState) (r : StartSettle) : RunnerState :=
  if s.startResult.isNone then { s with startResult := some r } else s

/-- CommandRunner.processNextCommand (command-runner.ts lines 256-293):
return unless the queue is nonempty, no command is current and the process
handle is set; otherwise shift the head, clear both buffers, write the
command text plus newline to the process and arm a per-command timeout.
The `process.write` branch guard of line 271 cannot fail: the node-pty
IPty interface always provides `write`, so the stdin-unavailable branch of
lines 286-292 is unreachable. -/
def processNextCommand (s : RunnerState) : RunnerState :=
  match s.commandQueue, s.currentCommand, s.hasProcess with
  | c :: rest, none, true =>
    { s with currentCommand := some c
             commandQueue := rest
             outputBuffer := ""
             errorBuffer := ""
             writes := s.writes ++ [(c.id, c.command ++ "\n")]
             armedTimeouts := s.armedTimeouts + 1 }
  | _, _, _ => s

/-- The settlement pattern shared by the three completion sites of the
source (prompt match, per-command timeout, process exit): settle the
current sink, null `currentCommand`, then call processNextCommand. -/
def deliverCurrent (s : RunnerState) (c : Pending) (r : CmdResult) : RunnerState :=
  processNextCommand
    { s with currentCommand := none
             delivered := s.delivered ++ [(c.id, r)] }

/-- CommandRunner.checkCommandCompletion (command-runner.ts lines 295-335):
with a command in flight and a prompt pattern in the buffer, resolve the
current sink with the trimmed buffer and move on. The buffer itself is not
modified here. -/
def checkCommandCompletion (s : RunnerState) : RunnerState :=
  match s.currentCommand with
  | none => s
  | some c =>
    if hasPrompt s.outputBuffer then
      deliverCurrent s c (.ok (jsTrim s.outputBuffer))
    else s

/-- The onData handler registered in start() (command-runner.ts lines
109-119): append the chunk to the output buffer, then check completion. -/
def onDataEvent (chunk : String) (s : RunnerState) : RunnerState :=
  checkCommandCompletion { s with outputBuffer := s.outputBuffer ++ chunk }

/-- The onExit handler registered in start() (command-runner.ts lines
121-141): with a nonzero exit code before connecting, reject the start
promise; otherwise reject a current command sink with the exit-code
message and process the next command; in every case finally clear
`isConnected` and the process handle. -/
def onExitEvent (code : Int) (s : RunnerState) : RunnerState :=
  { (if code != 0 && !s.isConnected then
       settleStart s (.rejected (exitRejectMsg code))
     else
       match s.currentCommand with
       | some c => deliverCurrent s c (.err (cmdFailMsg code))
       | none => s) with
    isConnected := false, hasProcess := false }

/-- The connection-timeout handler of start() (command-runner.ts lines
144-152): when it fires before the runner is connected, reject the start
promise — the liveness of the process is not consulted. -/
def connTimeoutEvent (s : RunnerState) : RunnerState :=
  if !s.isConnected then
    settleStart s (.rejected (connTimeoutMsg s.configCommand))
  else s

/-- One tick of the `checkConnection` interval of start() (command-runner.ts
lines 155-182): on a readiness indication set `isConnected`, clear the
output buffer and resolve; on a failure indication in the error buffer
reject. -/
def connTickEvent (s : RunnerState) : RunnerState :=
  if bufferIndicatesReady s.outputBuffer then
    settleStart { s with isConnected := true, outputBuffer := "" } .resolved
  else if errorIndicatesFailure s.errorBuffer then
    settleStart s (.rejected (startFailMsg s.configCommand s.errorBuffer))
  else s

/-- The per-command timeout handler armed at dispatch (command-runner.ts
lines 275-285): if a command is current when it fires, resolve that sink
with the raw output buffer (a success, not an error) and process the next
command. -/
def cmdTimeoutEvent (s : RunnerState) : RunnerState :=
  match s.currentCommand with
  | some c =>
    deliverCurrent { s with armedTimeouts := s.armedTimeouts - 1 } c
      (.ok s.outputBuffer)
  | none => { s with armedTimeouts := s.armedTimeouts - 1 }

/-- Outcome of the synchronous part of a start() call. -/
inductive StartAction
  | resolvedImmediately
  | spawned
deriving Repr, DecidableEq

/-- The synchronous part of CommandRunner.start (command-runner.ts lines
90-107): if already connected with a live handle, resolve the fresh
promise at once and return; otherwise spawn the pty process, clear both
buffers and leave the new promise pending (the handlers above settle
it). -/
def startCall (s : RunnerState) : RunnerState × StartAction :=
  if s.isConnected && s.hasProcess then
    (s, .resolvedImmediately)
  else
    ({ s with hasProcess := true
              outputBuffer := ""
              errorBuffer := ""
              spawnCount := s.spawnCount + 1
              startResult := none }, .spawned)

/-- The dispatch-if-idle check of queueCommand (command-runner.ts lines
250-253): when no command is currently being processed, process the next
one. -/
def pumpQueue (s1 : RunnerState) : RunnerState :=
  if s1.currentCommand.isNone then processNextCommand s1 else s1

/-- CommandRunner.queueCommand (command-runner.ts lines 242-254): push the
command, then dispatch when nothing is currently processing. -/
def queueCommand (cmd : String) (s : RunnerState) : RunnerState :=
  pumpQueue { s with commandQueue := s.commandQueue ++ [⟨s.nextId, cmd⟩]
                     nextId := s.nextId + 1 }

/-- The synchronous part of CommandRunner.executeCommand (command-runner.ts
lines 212-222): reject at once when not connected or without a process
handle, otherwise queue. -/
def execCommandEvent (cmd : String) (s : RunnerState) : RunnerState :=
  if !s.isConnected || !s.hasProcess then
    { s with earlyRejected :=
               s.earlyRejected ++ [(s.nextId, notRunningMsg s.configCommand)]
             nextId := s.nextId + 1 }
  else queueCommand cmd s

/-- CommandRunner.stop (command-runner.ts lines 337-346): kill and null the
handle if present, clearing the connected flag; otherwise do nothing. -/
def stopEvent (s : RunnerState) : RunnerState :=
  if s.hasProcess then { s with hasProcess := false, isConnected := false }
  else s

/-! ## The event step relation -/

/-- One cooperative turn: each constructor is one callback or call of the
source as listed in the module docstring. -/
inductive Event
  | startReq
  | connTick
  | connTimeout
  | dataChunk : String → Event
  | exited : Int → Event
  | exec : String → Event
  | cmdTimeout
  | stopReq
deriving Repr

/-- The dispatcher from events to the handlers above. -/
def step (s : RunnerState) : Event → RunnerState
  | .startReq => (startCall s).1
  | .connTick => connTickEvent s
  | .connTimeout => connTimeoutEvent s
  | .dataChunk d => onDataEvent d s
  | .exited c => onExitEvent c s
  | .exec cmd => execCommandEvent cmd s
  | .cmdTimeout => cmdTimeoutEvent s
  | .stopReq => stopEvent s

/-- A fresh runner for the given configured command (the constructor,
command-runner.ts lines 48-67). -/
def initState (command : String) : RunnerState :=
  { configCommand := command }

/-- The state after a sequence of cooperative turns from a fresh runner. -/
def runTrace (command : String) (evs : List Event) : RunnerState :=
  evs.foldl step (initState command)

/-! ## runSingleCommand and runCommand (the ephemeral mode)

CommandRunner.runSingleCommand (command-runner.ts lines 191-210) awaits
start(), stops the process, and then guards `typeof output !== "string"`;
ProcessManager.runCommand (process-manager.ts) constructs an ad hoc runner
and returns `await runner.runSingleCommand()`. start() is a
`Promise<void>`: both of its resolve sites (lines 94 and 168) call
`resolve()` with no argument, so an awaited successful start() always
yields `undefined`. -/

/-- A JS value as far as the `typeof output !== "string"` guard of
runSingleCommand observes it. -/
inductive JsValue
  | undefValue
  | str : String → JsValue
deriving Repr, DecidableEq

/-- The value carried by a fulfilled start() promise: `undefined`, since
both resolve sites (command-runner.ts lines 94 and 168) pass no
argument. -/
def startResolveValue : JsValue := .undefValue

/-- CommandRunner.runSingleCommand (command-runner.ts lines 191-210), as a
function of the settlement of the awaited start() call: on fulfilment with
`output`, stop() runs and then the string guard either returns `output` or
throws; on rejection the error is rethrown (after a conditional stop). -/
def runSingleCommand (startOutcome : Except String JsValue) :
    Except String String :=
  match startOutcome with
  | .ok output =>
    match output with
    | .str sVal => .ok sVal
    | .undefValue => .error "Command execution result is not a string"
  | .error e => .error e

/-! ## ProcessManager (the session registry)

The embedding of `src/services/process-manager.ts` (class ProcessManager).
The registry map `processes : Map<string, ManagedProcess>` is embedded as
an insertion-ordered association list with distinct keys, matching the JS
Map; the CommandRunner owned by each descriptor is governed by the runner
embedding above and is not repeated inside the descriptor. -/

/-- The `status` field of a ManagedProcess. -/
inductive PStatus
  | running
  | stopped
  | error
deriving Repr, DecidableEq, BEq

/-- A registry descriptor (interface ManagedProcess of process-manager.ts):
identity, command line, start timestamp in epoch milliseconds, status. -/
structure ManagedProcess where
  id : String
  command : String
  args : List String
  startTime : Nat
  status : PStatus
deriving Repr, DecidableEq

/-- ProcessManagerConfig (src/types/config.types.ts): maximum concurrent
sessions and the sweep interval. -/
structure ProcessManagerConfig where
  maxProcesses : Nat
  checkIntervalMs : Nat
deriving Repr, DecidableEq

/-- The state of a ProcessManager: its config and the id-keyed map of
descriptors. -/
structure PMState where
  config : ProcessManagerConfig
  processes : List (String × ManagedProcess) := []
deriving Repr, DecidableEq

/-- The errors thrown by the synchronous part of startProcess. -/
inductive PMError
  | capacityExceeded : Nat → PMError
  | duplicateId : String → PMError
deriving Repr, DecidableEq

/-- The number of descriptors whose status is running. -/
def countRunning (st : PMState) : Nat :=
  (st.processes.filter (fun kv => kv.2.status == PStatus.running)).length

/-- ProcessManager.getProcess (process-manager.ts lines 116-118):
`this.processes.get(id)`. -/
def getProcess (st : PMState) (id : String) : Option ManagedProcess :=
  st.processes.lookup id

/-- The synchronous registration part of ProcessManager.startProcess
(process-manager.ts lines 31-66): throw CapacityExceeded when the map size
has reached `maxProcesses`; then throw DuplicateId when the id is present;
otherwise insert a running descriptor. The later `await runner.start()`
(which on failure flips the status to error but never removes the entry)
is a separate turn governed by the runner embedding. Returns the thrown
error or the created descriptor, together with the registry state after
the call. -/
def startProcess (st : PMState) (id command : String) (args : List String)
    (now : Nat) : Except PMError ManagedProcess × PMState :=
  if st.processes.length ≥ st.config.maxProcesses then
    (.error (.capacityExceeded st.config.maxProcesses), st)
  else if (st.processes.lookup id).isSome then
    (.error (.duplicateId id), st)
  else
    let mp : ManagedProcess :=
      { id := id, command := command, args := args,
        startTime := now, status := .running }
    (.ok mp, { st with processes := st.processes ++ [(id, mp)] })

/-- In-place status mutation of the descriptor stored under `id` (the JS
objects in the map are mutated by reference). -/
def setStatus (ps : List (String × ManagedProcess)) (id : String)
    (st : PStatus) : List (String × ManagedProcess) :=
  ps.map (fun kv => if kv.1 = id then (kv.1, { kv.2 with status := st }) else kv)

/-- ProcessManager.stopProcess (process-manager.ts lines 97-109): false when
the id is unknown; otherwise, when the descriptor is running, stop the
runner and mark it stopped; true. -/
def stopProcess (st : PMState) (id : String) : PMState × Bool :=
  match st.processes.lookup id with
  | none => (st, false)
  | some mp =>
    if mp.status = PStatus.running then
      ({ st with processes := setStatus st.processes id .stopped }, true)
    else (st, true)

/-- The retention window of the sweep, hard-coded at process-manager.ts
line 200: five minutes in milliseconds. -/
def retentionMs : Nat := 5 * 60 * 1000

/-- Whether one sweep pass evicts a descriptor at time `now`
(process-manager.ts lines 198-201). -/
def sweepEvicts (p : ManagedProcess) (now : Nat) : Bool :=
  decide (p.status ≠ PStatus.running) && decide (now - p.startTime > retentionMs)

/-- One pass of the monitoring interval started by the constructor
(ProcessManager.startMonitoring, process-manager.ts lines 194-206): delete
every descriptor that is past retention and not running. -/
def sweepPass (st : PMState) (now : Nat) : PMState :=
  { st with processes := st.processes.filter (fun kv => !sweepEvicts kv.2 now) }

/-! ## Basic lemmas about the runner handlers -/

theorem processNextCommand_delivered (s : RunnerState) :
    (processNextCommand s).delivered = s.delivered := by
  cases hq : s.commandQueue <;> cases hc : s.currentCommand <;>
    cases hp : s.hasProcess <;> simp [processNextCommand, hq, hc, hp]

theorem deliverCurrent_delivered (s : RunnerState) (c : Pending) (r : CmdResult) :
    (deliverCurrent s c r).delivered = s.delivered ++ [(c.id, r)] := by
  unfold deliverCurrent
  rw [processNextCommand_delivered]

/-! ## C10 -/

/-- C10: a start() call on a runner that is already connected with a live
process handle resolves immediately, spawns nothing and leaves the whole
runner state unchanged. -/
theorem c10_start_idempotent_when_connected (s : RunnerState)
    (hc : s.isConnected = true) (hp : s.hasProcess = true) :
    startCall s = (s, StartAction.resolvedImmediately) := by
  simp [startCall, hc, hp]

/-- Witness for C10 at a concretely connected runner. -/
theorem c10_witness :
    startCall (runTrace "bash" [.startReq, .dataChunk "$ ", .connTick]) =
      (runTrace "bash" [.startReq, .dataChunk "$ ", .connTick],
       StartAction.resolvedImmediately) :=
  c10_start_idempotent_when_connected _ (by decide) (by decide)

/-! ## C2 -/

/-- C2: when the per-command timeout fires while a command is in flight,
its sink is resolved (never rejected) with exactly the output buffered up
to that point; the runner moves on to the next queued command. Together
with the fact that every dispatch arms such a timeout
(`processNextCommand` increments `armedTimeouts`), the call settles within
the timeout. The caller-facing value is this buffer passed through
`scrub`. -/
theorem c2_timeout_resolves_with_buffer (s : RunnerState) (c : Pending)
    (h : s.currentCommand = some c) :
    (cmdTimeoutEvent s).delivered =
      s.delivered ++ [(c.id, CmdResult.ok s.outputBuffer)] := by
  simp [cmdTimeoutEvent, h, deliverCurrent_delivered]

/-- Witness for C2: a command in flight with a promptless incomplete buffer is
resolved with that buffer when its timeout fires. -/
theorem c2_witness :
    (cmdTimeoutEvent (runTrace "bash"
        [.startReq, .dataChunk "$ ", .connTick, .exec "sleep 5",
         .dataChunk "pending-output"])).delivered =
      (runTrace "bash"
        [.startReq, .dataChunk "$ ", .connTick, .exec "sleep 5",
         .dataChunk "pending-output"]).delivered ++
        [(0, CmdResult.ok (runTrace "bash"
          [.startReq, .dataChunk "$ ", .connTick, .exec "sleep 5",
           .dataChunk "pending-output"]).outputBuffer)] :=
  c2_timeout_resolves_with_buffer _ ⟨0, "sleep 5"⟩ (by decide)

/-! ## C1 -/

/-- C1 counterexample: a runner that has spawned (the process handle is
live, no exit has occurred) and has seen no readiness output. When the
connection timeout fires, start() rejects with the ConnectionTimeout
message instead of resolving in a degraded mode, refuting the claim that
with a live process the timeout leads to success. -/
theorem c1_counterexample :
    (runTrace "sleep" [.startReq]).hasProcess = true ∧
    (step (runTrace "sleep" [.startReq]) .connTimeout).startResult =
      some (StartSettle.rejected (connTimeoutMsg "sleep")) ∧
    (step (runTrace "sleep" [.startReq]) .connTimeout).startResult ≠
      some StartSettle.resolved := by
  refine ⟨rfl, rfl, by decide⟩

/-- C1 amended: whenever the connection timeout fires before the runner is
connected, start() rejects with ConnectionTimeout — the handler never
consults process liveness, so there is no degraded success path; a process
death with nonzero code before connecting is instead rejected by the exit
handler with an exit-code message. -/
theorem c1_amended_timeout_always_rejects (s : RunnerState)
    (hc : s.isConnected = false) (hr : s.startResult = none) :
    (connTimeoutEvent s).startResult =
      some (StartSettle.rejected (connTimeoutMsg s.configCommand)) := by
  simp [connTimeoutEvent, hc, settleStart, hr]

/-- Witness for the amended C1 at a freshly spawned runner. -/
theorem c1_amended_witness :
    (connTimeoutEvent (runTrace "sleep" [.startReq])).startResult =
      some (StartSettle.rejected
        (connTimeoutMsg (runTrace "sleep" [.startReq]).configCommand)) :=
  c1_amended_timeout_always_rejects _ (by decide) (by decide)

/-! ## C6 -/

/-- C6: runSingleCommand (hence ProcessManager.runCommand) never returns
the output captured during the connect phase: a successful start() fulfils
with `undefined` (both resolve sites pass no value), so the string guard
of runSingleCommand throws on every successful start, after stopping the
process. -/
theorem c6_run_single_command_always_errors :
    runSingleCommand (Except.ok startResolveValue) =
      Except.error "Command execution result is not a string" := rfl

/-! ## C7 -/

/-- A registry at capacity one whose only session is already stopped. -/
def pmStoppedFull : PMState :=
  { config := { maxProcesses := 1, checkIntervalMs := 5000 },
    processes := [("a",
      { id := "a", command := "bash", args := [], startTime := 0,
        status := .stopped })] }

/-- C7 counterexample: with zero running sessions (the single registered
one is stopped) and capacity one, startProcess for a fresh id still throws
CapacityExceeded: the capacity check counts every registered descriptor,
not the running ones. -/
theorem c7_counterexample :
    (startProcess pmStoppedFull "b" "bash" [] 1000).1 =
      Except.error (PMError.capacityExceeded 1) ∧
    countRunning pmStoppedFull = 0 ∧
    pmStoppedFull.config.maxProcesses = 1 := by
  refine ⟨rfl, rfl, rfl⟩

/-- C7 amended: startProcess throws CapacityExceeded exactly when the
total number of registered descriptors (of any status) has reached the
configured maximum; below capacity it throws DuplicateId when the id is
registered; in every failure case the registry state is returned
unchanged. -/
theorem c7_amended (st : PMState) (id command : String) (args : List String)
    (now : Nat) :
    (st.processes.length ≥ st.config.maxProcesses →
      startProcess st id command args now =
        (Except.error (PMError.capacityExceeded st.config.maxProcesses), st)) ∧
    (st.processes.length < st.config.maxProcesses →
      (st.processes.lookup id).isSome = true →
      startProcess st id command args now =
        (Except.error (PMError.duplicateId id), st)) ∧
    (∀ e st2, startProcess st id command args now = (Except.error e, st2) →
      st2 = st) := by
  refine ⟨fun hge => ?_, fun hlt hdup => ?_, fun e st2 h => ?_⟩
  · simp [startProcess, hge]
  · simp [startProcess, Nat.not_le.mpr hlt, hdup]
  · unfold startProcess at h
    split at h
    · exact (Prod.mk.injEq _ _ _ _ ▸ h).2.symm ▸ rfl
    · split at h
      · exact (Prod.mk.injEq _ _ _ _ ▸ h).2.symm ▸ rfl
      · exact absurd (Prod.mk.injEq _ _ _ _ ▸ h).1 (by simp)

/-- Witness for the amended C7: the capacity branch fires on the concrete
full registry and returns it unchanged. -/
theorem c7_amended_witness :
    startProcess pmStoppedFull "b" "bash" [] 1000 =
      (Except.error (PMError.capacityExceeded 1), pmStoppedFull) :=
  (c7_amended pmStoppedFull "b" "bash" [] 1000).1 (by decide)

/-! ## C3 -/

/-- The spec scenario for C3: connect on a prompt, execute `echo hi`, and
receive the full echo with CRLF line endings in one chunk. -/
def echoScenario : List Event :=
  [.startReq, .dataChunk "user@host:~$ ", .connTick, .exec "echo hi",
   .dataChunk "echo hi\r\nhi\r\nuser@host:~$ "]

/-- C3 counterexample: in the spec scenario the raw sink value is the
trimmed buffer, and scrubbing it returns it unchanged — not "hi". The
echoed-line strip of `executeCommand` uses the regex anchored `.*\n`, whose
`.` cannot cross the CR of a CRLF ending, so the echoed first line
survives; and no step removes the trailing prompt remnant. -/
theorem c3_counterexample :
    (runTrace "bash" echoScenario).delivered =
      [(0, CmdResult.ok "echo hi\r\nhi\r\nuser@host:~$")] ∧
    scrub "echo hi\r\nhi\r\nuser@host:~$" ≠ "hi" := by
  refine ⟨rfl, by decide⟩

/-- C3 amended: in the spec scenario the delivered result after scrubbing
equals the whole echo minus the trailing space,
"echo hi\r\nhi\r\nuser@host:~$": ANSI stripping and the echoed-line strip
leave it unchanged (the latter never matches a CRLF-terminated first
line), only surrounding whitespace is trimmed, and the trailing prompt
remnant is kept. -/
theorem c3_amended :
    (runTrace "bash" echoScenario).delivered =
      [(0, CmdResult.ok "echo hi\r\nhi\r\nuser@host:~$")] ∧
    scrub "echo hi\r\nhi\r\nuser@host:~$" =
      "echo hi\r\nhi\r\nuser@host:~$" := ⟨rfl, rfl⟩

/-! ## C4 -/

/-- A connected runner with `sleep 100` in flight and `echo x` queued. -/
def inflightScenario : List Event :=
  [.startReq, .dataChunk "$ ", .connTick, .exec "sleep 100", .exec "echo x"]

/-- C4 counterexample: when the process exits with a command in flight and
another queued, the in-flight sink is indeed rejected with the exit-code
message, but the queued command does not fail fast with NotRunning: it is
shifted and written to the dead process (the exit handler runs
processNextCommand before nulling the handle), remaining undelivered. -/
theorem c4_counterexample :
    (step (runTrace "bash" inflightScenario) (.exited 1)).currentCommand =
      some ⟨1, "echo x"⟩ ∧
    (step (runTrace "bash" inflightScenario) (.exited 1)).writes =
      [(0, "sleep 100\n"), (1, "echo x\n")] ∧
    (step (runTrace "bash" inflightScenario) (.exited 1)).delivered.map
        Prod.fst = [0] := by
  refine ⟨rfl, rfl, rfl⟩

/-- C4 amended: on process exit with a command in flight, that sink is
rejected with CommandExecutionFailed carrying the exit code and the runner
ends disconnected; but the first command queued behind it is dispatched
(written) to the dead process rather than failed, because the exit handler
nulls the process handle only after running processNextCommand. Only
executeCommand calls made after disconnection fail fast with the
NotRunning rejection. -/
theorem c4_amended (s : RunnerState) (c c2 : Pending) (rest : List Pending)
    (code : Int) (hconn : s.isConnected = true)
    (hcur : s.currentCommand = some c) (hq : s.commandQueue = c2 :: rest)
    (hp : s.hasProcess = true) :
    ((onExitEvent code s).delivered =
       s.delivered ++ [(c.id, CmdResult.err (cmdFailMsg code))] ∧
     (onExitEvent code s).currentCommand = some c2 ∧
     (onExitEvent code s).writes =
       s.writes ++ [(c2.id, c2.command ++ "\n")] ∧
     (onExitEvent code s).hasProcess = false) ∧
    (∀ cmd s2, s2.isConnected = false →
      (execCommandEvent cmd s2).earlyRejected =
        s2.earlyRejected ++ [(s2.nextId, notRunningMsg s2.configCommand)]) := by
  constructor
  · simp [onExitEvent, hconn, hcur, deliverCurrent, processNextCommand, hq, hp]
  · intro cmd s2 h2
    simp [execCommandEvent, h2]

/-- Witness for the amended C4 at the concrete in-flight scenario. -/
theorem c4_amended_witness :
    ((onExitEvent 1 (runTrace "bash" inflightScenario)).delivered =
       (runTrace "bash" inflightScenario).delivered ++
         [(0, CmdResult.err (cmdFailMsg 1))] ∧
     (onExitEvent 1 (runTrace "bash" inflightScenario)).currentCommand =
       some ⟨1, "echo x"⟩ ∧
     (onExitEvent 1 (runTrace "bash" inflightScenario)).writes =
       (runTrace "bash" inflightScenario).writes ++ [(1, "echo x\n")] ∧
     (onExitEvent 1 (runTrace "bash" inflightScenario)).hasProcess = false) ∧
    (∀ cmd s2, s2.isConnected = false →
      (execCommandEvent cmd s2).earlyRejected =
        s2.earlyRejected ++ [(s2.nextId, notRunningMsg s2.configCommand)]) :=
  c4_amended (runTrace "bash" inflightScenario) ⟨0, "sleep 100"⟩ ⟨1, "echo x"⟩
    [] 1 (by decide) (by decide) (by decide) (by decide)

/-! ## C8 -/

/-- A connected runner with `cat` in flight on an empty queue. -/
def promptAfterScenario : List Event :=
  [.startReq, .dataChunk "$ ", .connTick, .exec "cat"]

/-- C8 counterexample: a data chunk completes the in-flight command (the
result is delivered), yet the output buffer is not cleared at delivery: it
still holds the whole chunk, because the completion path only reads the
buffer and the clearing is done by the next dispatch, which does not
happen on an empty queue. -/
theorem c8_counterexample :
    (step (runTrace "bash" promptAfterScenario) (.dataChunk "hi\r\n$ ")).delivered =
      [(0, CmdResult.ok "hi\r\n$")] ∧
    (step (runTrace "bash" promptAfterScenario) (.dataChunk "hi\r\n$ ")).outputBuffer =
      "hi\r\n$ " ∧
    (step (runTrace "bash" promptAfterScenario) (.dataChunk "hi\r\n$ ")).outputBuffer ≠
      "" := by
  refine ⟨rfl, rfl, by decide⟩

/-- C8 amended: the output buffer is reset at successful connect and at
each new command dispatch; at delivery it is consumed (read) but not
cleared — with an empty queue the buffer keeps its contents after the
result is delivered, until a later dispatch or reconnect clears it. -/
theorem c8_amended :
    (∀ s : RunnerState, bufferIndicatesReady s.outputBuffer = true →
      (connTickEvent s).outputBuffer = "") ∧
    (∀ (s : RunnerState) (c : Pending) (rest : List Pending),
      s.commandQueue = c :: rest → s.currentCommand = none →
      s.hasProcess = true → (processNextCommand s).outputBuffer = "") ∧
    (∀ (s : RunnerState) (c : Pending) (d : String),
      s.currentCommand = some c → s.commandQueue = [] →
      (onDataEvent d s).outputBuffer = s.outputBuffer ++ d) := by
  refine ⟨fun s hs => ?_, fun s c rest hq hc hp => ?_, fun s c d hc hq => ?_⟩
  · simp [connTickEvent, hs, settleStart]
    split <;> rfl
  · simp [processNextCommand, hq, hc, hp]
  · unfold onDataEvent checkCommandCompletion
    simp only [hc]
    split
    · simp [deliverCurrent, processNextCommand, hq]
    · rfl

/-- Witness for the amended C8: delivery on an empty queue leaves the
buffer holding the full chunk. -/
theorem c8_amended_witness :
    (onDataEvent "hi\r\n$ " (runTrace "bash" promptAfterScenario)).outputBuffer =
      (runTrace "bash" promptAfterScenario).outputBuffer ++ "hi\r\n$ " :=
  c8_amended.2.2 (runTrace "bash" promptAfterScenario) ⟨0, "cat"⟩ "hi\r\n$ "
    (by decide) (by decide)

/-! ## Association-list lemmas for the registry map -/

theorem lookup_filter_none (ps : List (String × ManagedProcess))
    (pred : String × ManagedProcess → Bool) (id : String)
    (h : ps.lookup id = none) : (ps.filter pred).lookup id = none := by
  induction ps with
  | nil => simp
  | cons kv rest ih =>
    obtain ⟨k, q⟩ := kv
    rw [List.lookup_cons] at h
    cases hk : id == k with
    | true => simp [hk] at h
    | false =>
      rw [hk] at h
      rw [List.filter_cons]
      split
      · rw [List.lookup_cons, hk]
        exact ih h
      · exact ih h

theorem lookup_none_of_not_mem_keys (ps : List (String × ManagedProcess))
    (id : String) (h : id ∉ ps.map Prod.fst) : ps.lookup id = none := by
  induction ps with
  | nil => rfl
  | cons kv rest ih =>
    obtain ⟨k, q⟩ := kv
    simp only [List.map_cons, List.mem_cons, not_or] at h
    have hk : (id == k) = false := by simpa using h.1
    rw [List.lookup_cons, hk]
    exact ih h.2

theorem lookup_filter_nodup (ps : List (String × ManagedProcess))
    (pred : String × ManagedProcess → Bool) (id : String) (p : ManagedProcess)
    (hnd : (ps.map Prod.fst).Nodup) :
    ((ps.filter pred).lookup id = some p ↔
      (ps.lookup id = some p ∧ pred (id, p) = true)) := by
  induction ps with
  | nil => simp
  | cons kv rest ih =>
    obtain ⟨k, q⟩ := kv
    rw [List.map_cons, List.nodup_cons] at hnd
    obtain ⟨hknotin, hndrest⟩ := hnd
    rw [List.filter_cons]
    by_cases hid : id = k
    · subst hid
      have hrest : rest.lookup id = none :=
        lookup_none_of_not_mem_keys rest id (by simpa using hknotin)
      have hfrest : (rest.filter pred).lookup id = none :=
        lookup_filter_none rest pred id hrest
      split
      · rename_i hpred
        rw [List.lookup_cons_self, List.lookup_cons_self]
        constructor
        · intro h
          refine ⟨h, ?_⟩
          have hqp : q = p := by simpa using h
          rw [← hqp]
          exact hpred
        · exact fun h => h.1
      · rename_i hpred
        rw [hfrest, List.lookup_cons_self]
        constructor
        · exact fun h => Option.noConfusion h
        · rintro ⟨h1, h2⟩
          have hqp : q = p := by simpa using h1
          rw [← hqp] at h2
          exact absurd h2 hpred
    · have hk : (id == k) = false := by simpa using hid
      have ihr := ih hndrest
      split
      · rw [List.lookup_cons, hk, List.lookup_cons, hk]
        exact ihr
      · rw [List.lookup_cons, hk]
        exact ihr

theorem setStatus_keys (ps : List (String × ManagedProcess)) (id : String)
    (v : PStatus) : (setStatus ps id v).map Prod.fst = ps.map Prod.fst := by
  induction ps with
  | nil => rfl
  | cons kv rest ih =>
    obtain ⟨k, q⟩ := kv
    simp only [setStatus, List.map_cons] at *
    split <;> simp_all

theorem lookup_setStatus (ps : List (String × ManagedProcess)) (id : String)
    (v : PStatus) :
    (setStatus ps id v).lookup id =
      (ps.lookup id).map (fun q => { q with status := v }) := by
  induction ps with
  | nil => rfl
  | cons kv rest ih =>
    obtain ⟨k, q⟩ := kv
    simp only [setStatus, List.map_cons]
    split
    · rename_i heq
      rw [List.lookup_cons, List.lookup_cons]
      have hk : (id == k) = true := by simpa using heq.symm
      rw [hk]
      rfl
    · rename_i hne
      rw [List.lookup_cons, List.lookup_cons]
      have hk : (id == k) = false := by
        simpa using fun h => hne h.symm
      rw [hk]
      exact ih

/-! ## C9 -/

/-- C9: a sweep pass at time `now` keeps a registered descriptor exactly
when it is still running or not yet past the retention window measured
from its start timestamp; consequently a running session is never evicted,
and after a successful stopProcess a descriptor past retention is gone
from getProcess. -/
theorem c9_sweep_eviction (st : PMState) (now : Nat) (id : String)
    (hnd : (st.processes.map Prod.fst).Nodup) :
    (∀ p, getProcess (sweepPass st now) id = some p ↔
      (getProcess st id = some p ∧
        (p.status = PStatus.running ∨ now - p.startTime ≤ retentionMs))) ∧
    (∀ p, getProcess st id = some p → p.status = PStatus.running →
      getProcess (sweepPass st now) id = some p) ∧
    (∀ p, getProcess st id = some p → now - p.startTime > retentionMs →
      getProcess (sweepPass ((stopProcess st id).1) now) id = none) := by
  have keep_iff : ∀ p : ManagedProcess, (!sweepEvicts p now) = true ↔
      (p.status = PStatus.running ∨ now - p.startTime ≤ retentionMs) := by
    intro p
    simp [sweepEvicts, not_lt, or_iff_not_imp_left]
  have main : ∀ p, getProcess (sweepPass st now) id = some p ↔
      (getProcess st id = some p ∧
        (p.status = PStatus.running ∨ now - p.startTime ≤ retentionMs)) := by
    intro p
    unfold getProcess sweepPass
    rw [lookup_filter_nodup _ _ _ _ hnd]
    exact and_congr_right fun _ => keep_iff p
  refine ⟨main, fun p hp hrun => ?_, fun p hp helapsed => ?_⟩
  · exact (main p).mpr ⟨hp, Or.inl hrun⟩
  · have hstop : (stopProcess st id).1 =
        if p.status = PStatus.running
        then { st with processes := setStatus st.processes id .stopped }
        else st := by
      unfold getProcess at hp
      simp only [stopProcess, hp]
      split <;> rfl
    rw [hstop]
    by_cases hrun : p.status = PStatus.running
    · rw [if_pos hrun]
      cases hres : getProcess
          (sweepPass { st with
            processes := setStatus st.processes id .stopped } now) id with
      | none => rfl
      | some q =>
        exfalso
        unfold getProcess sweepPass at hres
        rw [lookup_filter_nodup _ _ _ _
          (by simpa [setStatus_keys] using hnd)] at hres
        obtain ⟨h1, h2⟩ := hres
        simp only at h1
        rw [lookup_setStatus] at h1
        unfold getProcess at hp
        rw [hp] at h1
        have hq : { p with status := PStatus.stopped } = q := by
          simpa using h1
        rw [← hq] at h2
        simp [sweepEvicts, helapsed] at h2
    · rw [if_neg hrun]
      cases hres : getProcess (sweepPass st now) id with
      | none => rfl
      | some q =>
        exfalso
        obtain ⟨h1, h2⟩ := (main q).mp hres
        rw [hp] at h1
        have hq : p = q := by simpa using h1
        subst hq
        rcases h2 with h2 | h2
        · exact hrun h2
        · exact absurd helapsed (not_lt.mpr h2)

/-- The spec scenario for C9: capacity two, sessions a and b started, c
refused, a stopped. -/
def pmScenario : PMState :=
  (startProcess
    (startProcess { config := { maxProcesses := 2, checkIntervalMs := 5000 } }
      "a" "bash" [] 0).2
    "b" "bash" [] 0).2

/-- Witness for C9 on the spec scenario: after stopping session a, a sweep
past the retention window removes it from getProcess. -/
theorem c9_witness :
    getProcess (sweepPass ((stopProcess pmScenario "a").1) 300001) "a" =
      none :=
  (c9_sweep_eviction pmScenario 300001 "a" (by decide)).2.2
    { id := "a", command := "bash", args := [], startTime := 0,
      status := .running }
    (by decide) (by decide)

/-! ## The FIFO and single-flight invariant (C5)

Submission numbers are handed out by the `nextId` counter, so the
submission order of commands is the numeric order of their identifiers.
The invariant below says that the identifiers laid out as
delivered sinks, then the in-flight command, then the queue, then the
counter, form a strictly increasing sequence — so deliveries happen in
submission order — and that the dispatched (written) commands are exactly
the delivered ones plus the single optional in-flight one. -/

/-- The identifier of the in-flight command, as a zero- or one-element
list. -/
def curIds (s : RunnerState) : List Nat :=
  match s.currentCommand with
  | none => []
  | some c => [c.id]

/-- The full id timeline of a runner state. -/
def timeline (s : RunnerState) : List Nat :=
  s.delivered.map Prod.fst ++ curIds s ++ s.commandQueue.map Pending.id ++
    [s.nextId]

/-- A dispatched command is either delivered or the unique in-flight one. -/
def WritesMatch (s : RunnerState) : Prop :=
  s.writes.map Prod.fst = s.delivered.map Prod.fst ++ curIds s

/-- The inductive invariant of the runner. -/
def RunnerInv (s : RunnerState) : Prop :=
  List.Chain' (· < ·) (timeline s) ∧ WritesMatch s

theorem chain_snoc_bump (l : List Nat) (n m : Nat) (hnm : n ≤ m)
    (h : List.Chain' (· < ·) (l ++ [n])) :
    List.Chain' (· < ·) (l ++ [m]) := by
  rw [List.chain'_append] at h ⊢
  obtain ⟨h1, _, h3⟩ := h
  refine ⟨h1, List.chain'_singleton m, fun x hx y hy => ?_⟩
  simp only [List.head?_cons, Option.mem_def, Option.some.injEq] at hy
  subst hy
  have := h3 x hx n (by simp)
  omega

theorem chain_snoc_snoc (l : List Nat) (n : Nat)
    (h : List.Chain' (· < ·) (l ++ [n])) :
    List.Chain' (· < ·) (l ++ [n, n + 1]) := by
  have heq : l ++ [n, n + 1] = (l ++ [n]) ++ [n + 1] := by simp
  rw [heq]
  refine List.Chain'.append h (List.chain'_singleton _) fun x hx y hy => ?_
  rw [List.getLast?_concat] at hx
  simp only [Option.mem_def, Option.some.injEq] at hx
  simp only [List.head?_cons, Option.mem_def, Option.some.injEq] at hy
  omega

theorem timeline_processNextCommand (s : RunnerState) :
    timeline (processNextCommand s) = timeline s := by
  cases hq : s.commandQueue <;> cases hc : s.currentCommand <;>
    cases hp : s.hasProcess <;>
      simp [processNextCommand, timeline, curIds, hq, hc, hp]

theorem writesMatch_processNextCommand (s : RunnerState) (h : WritesMatch s) :
    WritesMatch (processNextCommand s) := by
  unfold WritesMatch at *
  cases hq : s.commandQueue <;> cases hc : s.currentCommand <;>
    cases hp : s.hasProcess <;>
      simp_all [processNextCommand, curIds, hq, hc, hp]

theorem timeline_deliverCurrent (s : RunnerState) (c : Pending)
    (r : CmdResult) (h : s.currentCommand = some c) :
    timeline (deliverCurrent s c r) = timeline s := by
  unfold deliverCurrent
  rw [timeline_processNextCommand]
  simp [timeline, curIds, h]

theorem writesMatch_deliverCurrent (s : RunnerState) (c : Pending)
    (r : CmdResult) (hc : s.currentCommand = some c) (h : WritesMatch s) :
    WritesMatch (deliverCurrent s c r) := by
  unfold deliverCurrent
  apply writesMatch_processNextCommand
  unfold WritesMatch at *
  simp only [curIds, hc] at h
  simp [curIds, h]

theorem timeline_settleStart (s : RunnerState) (r : StartSettle) :
    timeline (settleStart s r) = timeline s := by
  unfold settleStart
  split <;> rfl

theorem writesMatch_settleStart (s : RunnerState) (r : StartSettle)
    (h : WritesMatch s) : WritesMatch (settleStart s r) := by
  unfold settleStart
  split <;> exact h

theorem inv_checkCommandCompletion (s : RunnerState) (h : RunnerInv s) :
    RunnerInv (checkCommandCompletion s) := by
  obtain ⟨hchain, hw⟩ := h
  unfold checkCommandCompletion
  split
  · exact ⟨hchain, hw⟩
  · rename_i c hc
    split
    · refine ⟨?_, writesMatch_deliverCurrent s c _ hc hw⟩
      rw [timeline_deliverCurrent s c (CmdResult.ok (jsTrim s.outputBuffer)) hc]
      exact hchain
    · exact ⟨hchain, hw⟩

theorem inv_startCall (s : RunnerState) (h : RunnerInv s) :
    RunnerInv (startCall s).1 := by
  obtain ⟨hchain, hw⟩ := h
  unfold startCall
  split
  · exact ⟨hchain, hw⟩
  · exact ⟨hchain, hw⟩

theorem inv_connTickEvent (s : RunnerState) (h : RunnerInv s) :
    RunnerInv (connTickEvent s) := by
  obtain ⟨hchain, hw⟩ := h
  unfold connTickEvent
  split
  · refine ⟨?_, writesMatch_settleStart _ _ hw⟩
    rw [timeline_settleStart]
    exact hchain
  · split
    · refine ⟨?_, writesMatch_settleStart _ _ hw⟩
      rw [timeline_settleStart]
      exact hchain
    · exact ⟨hchain, hw⟩

theorem inv_connTimeoutEvent (s : RunnerState) (h : RunnerInv s) :
    RunnerInv (connTimeoutEvent s) := by
  obtain ⟨hchain, hw⟩ := h
  unfold connTimeoutEvent
  split
  · refine ⟨?_, writesMatch_settleStart _ _ hw⟩
    rw [timeline_settleStart]
    exact hchain
  · exact ⟨hchain, hw⟩

theorem inv_onExitEvent (code : Int) (s : RunnerState) (h : RunnerInv s) :
    RunnerInv (onExitEvent code s) := by
  obtain ⟨hchain, hw⟩ := h
  unfold onExitEvent
  have hX : RunnerInv
      (if code != 0 && !s.isConnected then
         settleStart s (.rejected (exitRejectMsg code))
       else
         match s.currentCommand with
         | some c => deliverCurrent s c (.err (cmdFailMsg code))
         | none => s) := by
    split
    · refine ⟨?_, writesMatch_settleStart _ _ hw⟩
      rw [timeline_settleStart]
      exact hchain
    · split
      · rename_i c hc
        refine ⟨?_, writesMatch_deliverCurrent s c _ hc hw⟩
        rw [timeline_deliverCurrent s c (CmdResult.err (cmdFailMsg code)) hc]
        exact hchain
      · exact ⟨hchain, hw⟩
  exact hX

theorem inv_cmdTimeoutEvent (s : RunnerState) (h : RunnerInv s) :
    RunnerInv (cmdTimeoutEvent s) := by
  obtain ⟨hchain, hw⟩ := h
  unfold cmdTimeoutEvent
  split
  · rename_i c hc
    have hc2 : ({ s with armedTimeouts := s.armedTimeouts - 1 }
        : RunnerState).currentCommand = some c := hc
    refine ⟨?_, writesMatch_deliverCurrent _ c _ hc2 hw⟩
    rw [timeline_deliverCurrent _ c (CmdResult.ok s.outputBuffer) hc2]
    exact hchain
  · exact ⟨hchain, hw⟩

theorem inv_execCommandEvent (cmd : String) (s : RunnerState)
    (h : RunnerInv s) : RunnerInv (execCommandEvent cmd s) := by
  obtain ⟨hchain, hw⟩ := h
  unfold execCommandEvent
  split
  · exact ⟨chain_snoc_bump _ _ _ (Nat.le_succ _) hchain, hw⟩
  · unfold queueCommand pumpQueue
    have hchain2 : List.Chain' (· < ·)
        (timeline { s with
          commandQueue := s.commandQueue ++ [⟨s.nextId, cmd⟩],
          nextId := s.nextId + 1 }) := by
      have h2 := chain_snoc_snoc _ _ hchain
      have heq : timeline { s with
          commandQueue := s.commandQueue ++ [⟨s.nextId, cmd⟩],
          nextId := s.nextId + 1 } =
          (s.delivered.map Prod.fst ++ curIds s ++
            s.commandQueue.map Pending.id) ++ [s.nextId, s.nextId + 1] := by
        simp [timeline, curIds, List.append_assoc]
      rw [heq]
      exact h2
    split
    · refine ⟨?_, writesMatch_processNextCommand _ hw⟩
      rw [timeline_processNextCommand]
      exact hchain2
    · exact ⟨hchain2, hw⟩

theorem inv_stopEvent (s : RunnerState) (h : RunnerInv s) :
    RunnerInv (stopEvent s) := by
  obtain ⟨hchain, hw⟩ := h
  unfold stopEvent
  split
  · exact ⟨hchain, hw⟩
  · exact ⟨hchain, hw⟩

theorem inv_step (s : RunnerState) (e : Event) (h : RunnerInv s) :
    RunnerInv (step s e) := by
  cases e with
  | startReq => exact inv_startCall s h
  | connTick => exact inv_connTickEvent s h
  | connTimeout => exact inv_connTimeoutEvent s h
  | dataChunk d => exact inv_checkCommandCompletion _ h
  | exited code => exact inv_onExitEvent code s h
  | exec cmd => exact inv_execCommandEvent cmd s h
  | cmdTimeout => exact inv_cmdTimeoutEvent s h
  | stopReq => exact inv_stopEvent s h

theorem inv_init (command : String) : RunnerInv (initState command) := by
  constructor
  · exact List.chain'_singleton 0
  · rfl

theorem inv_runTrace (command : String) (evs : List Event) :
    RunnerInv (runTrace command evs) := by
  unfold runTrace
  suffices h : ∀ s, RunnerInv s → RunnerInv (evs.foldl step s) from
    h _ (inv_init command)
  induction evs with
  | nil => exact fun s hs => hs
  | cons e rest ih => exact fun s hs => ih (step s e) (inv_step s e hs)

/-! ## C5 -/

/-- C5: over every event trace from a fresh runner, the identifiers of
delivered results are strictly increasing — queued commands are delivered
in submission (FIFO) order — and the dispatched (written) commands are
exactly the delivered ones plus at most the one in-flight command held in
the single `currentCommand` slot: at every instant at most one command is
dispatched and awaiting completion. -/
theorem c5_fifo_single_inflight (command : String) (evs : List Event) :
    List.Chain' (· < ·) ((runTrace command evs).delivered.map Prod.fst) ∧
    (runTrace command evs).writes.map Prod.fst =
      (runTrace command evs).delivered.map Prod.fst ++
        curIds (runTrace command evs) := by
  obtain ⟨hchain, hw⟩ := inv_runTrace command evs
  refine ⟨?_, hw⟩
  unfold timeline at hchain
  exact hchain.left_of_append.left_of_append.left_of_append

end PeonMcp
